import Mathlib

/-!
Shallow embedding of `src/aztec-contracts.js` from the
hyperledger-besu-aztec-demo repository.

The file models:
* the three `for (i = 0; i < xs.length; i++)` loops that accumulate note
  values (the loop counter `i` is an undeclared, module-shared global in the
  source, so the loops are embedded as functions that take the incoming value
  of the global counter and return its final value);
* the proof objects handed to the external library constructors
  (`JoinSplitProof`, `MintProof`) with exactly the argument values the source
  computes;
* the call trace of `instantiate` on its success path (artifact reads,
  deployments, `setFactory` registrations, asset deployments, and the final
  unguarded engine-configuration calls);
* an error-propagation model of `instantiate`'s four `try`/`catch` blocks and
  the transaction helpers' fatal `process.exit(-1)` handlers.
-/

namespace AztecDemo

/-- Blockchain addresses, public keys and note hashes are opaque identifiers
to this script; they are modelled as natural numbers. -/
abbrev Address := Nat

/-- A confidential note as used by the script: an owning public key and the
numeric value `k` (the script reads it with `note.k.toNumber()`). -/
structure Note where
  owner : Nat
  k : Nat
deriving Repr, DecidableEq

/-- Models `note.createZeroValueNote()` from aztec.js: a placeholder note of
value 0 (owned by the library's fixed placeholder key, modelled as 0). -/
def createZeroValueNote : Note := ⟨0, 0⟩

/-- Models `note.create(publicKey, value)` from aztec.js. -/
def createNote (publicKey : Nat) (value : Nat) : Note := ⟨publicKey, value⟩

/-- One step of a JavaScript loop `for (i = 0; i < xs.length; i++)` whose body
updates an accumulator from `xs[i]`.  `i` is the module-shared global counter;
the recursion indexes the list exactly as the source does. -/
def jsForAux {α β : Type} (xs : List β) (step : α → β → α) (i : Nat) (acc : α) :
    α × Nat :=
  if h : i < xs.length then
    jsForAux xs step (i + 1) (step acc (xs.get ⟨i, h⟩))
  else
    (acc, i)
termination_by xs.length - i

/-- A whole `for (i = 0; i < xs.length; i++)` loop.  The header assignment
`i = 0` overwrites whatever value `g` the global counter held before the loop;
the result pairs the final accumulator with the final value of the global. -/
def jsFor {α β : Type} (xs : List β) (step : α → β → α) (acc : α) (g : Nat) :
    α × Nat :=
  jsForAux xs step 0 acc

/-- Sum of the values of a list of notes, as an integer. -/
def sumK (notes : List Note) : Int := (notes.map (fun x => (x.k : Int))).sum

/-- Sum of the values of a list of notes, as a natural number. -/
def sumKNat (notes : List Note) : Nat := (notes.map Note.k).sum

/-- Outcome of running one of the script's async functions:
`ok` — the function returned normally; `exn` — an exception escaped the
function (rejected promise); `exit c` — the function called
`process.exit(c)`. -/
inductive Outcome
  | ok
  | exn
  | exit (code : Int)
deriving Repr, DecidableEq

/-- `true` exactly when the outcome is `process.exit` with a non-zero code. -/
def Outcome.isNonzeroExit : Outcome → Bool
  | .exit c => c != 0
  | _ => false

/-- The argument bundle `new JoinSplitProof(inputNotes, outputNotes, sender,
publicValue, publicOwner)` receives in the source. -/
structure JoinSplitProof where
  inputNotes : List Note
  outputNotes : List Note
  sender : Address
  publicValue : Int
  publicOwner : Address
deriving Repr, DecidableEq

/-- The argument bundle `new MintProof(currentTotalValueNote,
newTotalValueNote, mintedNotes, sender)` receives in the source. -/
structure MintProof where
  currentTotalValueNote : Note
  newTotalValueNote : Note
  mintedNotes : List Note
  sender : Address
deriving Repr, DecidableEq

/-- Model of `mintConfidentialAsset(notes, zkAssetMintable, aztecAccount,
txOptions)`.  `g` is the value of the module-global loop counter `i` on entry;
`submitFails` says whether the awaited `confidentialMint` transaction throws.
Returns the constructed `MintProof`, the control-flow outcome, and the value
of the global counter after the summation loop. -/
def mintConfidentialAsset (notes : List Note) (publicKey : Nat)
    (sender : Address) (g : Nat) (submitFails : Bool) :
    MintProof × Outcome × Nat :=
  let r := jsFor notes (fun acc x => acc + x.k) 0 g
  let zeroMintCounterNote := createZeroValueNote
  let newMintCounterNote := createNote publicKey r.1
  let adjustedNotes := notes.map (fun x => x)
  let proof : MintProof := ⟨zeroMintCounterNote, newMintCounterNote, adjustedNotes, sender⟩
  (proof, if submitFails then Outcome.exit (-1) else Outcome.ok, r.2)

/-- Model of `confidentialTransfer(inputNotes, inputNoteOwners, outputNotes,
zkAssetMintable, publicOwner, txOptions, display)`.  The two loops subtract
every output value and then add every input value into `kPublic`, exactly as
the source does; the resulting `JoinSplitProof` bundle carries that `kPublic`
as its public-delta argument.  `submitFails` says whether the awaited
`confidentialTransfer` transaction throws. -/
def confidentialTransfer (inputNotes : List Note) (inputNoteOwners : List Nat)
    (outputNotes : List Note) (zkAssetMintable : Address)
    (publicOwner : Address) (sender : Address) (g : Nat) (submitFails : Bool)
    (display : Bool) :
    JoinSplitProof × Outcome × Nat :=
  let r1 := jsFor outputNotes (fun acc x => acc - (x.k : Int)) 0 g
  let r2 := jsFor inputNotes (fun acc x => acc + (x.k : Int)) r1.1 r1.2
  let proof : JoinSplitProof := ⟨inputNotes, outputNotes, sender, r2.1, publicOwner⟩
  (proof, if submitFails then Outcome.exit (-1) else Outcome.ok, r2.2)

/-- The two on-chain calls `shieldsERC20toZkAsset` makes after constructing
its proof: `ace.publicApprove(zkAsset.address, proof.hash, -kPublic)` and the
`zkAsset.confidentialTransfer(...)` submission. -/
inductive ShieldStep
  | publicApprove (engine : Address) (asset : Address) (proofHash : Nat) (amount : Int)
  | confidentialTransferSubmit (asset : Address)
deriving Repr, DecidableEq

/-- Result of a `shieldsERC20toZkAsset` call: the constructed proof bundle,
the sequence of on-chain calls actually made (in order), the control-flow
outcome, and the value of the global loop counter after the summation
loops. -/
structure ShieldResult where
  proof : JoinSplitProof
  steps : List ShieldStep
  outcome : Outcome
  globalI : Nat
deriving Repr, DecidableEq

/-- Model of `shieldsERC20toZkAsset(inputNotes, inputNoteOwners, outputNotes,
zkAsset, ace, publicOwner, txOptions)`.  `hash` models the external library's
`proof.hash`.  The `publicApprove` call is awaited outside any `try` block, so
if it throws (`approveFails`) the exception propagates and the transfer is
never submitted; otherwise the transfer submission follows, and its failure
(`submitFails`) hits the `catch` that calls `process.exit(-1)`. -/
def shieldsERC20toZkAsset (hash : JoinSplitProof → Nat)
    (inputNotes : List Note) (inputNoteOwners : List Nat)
    (outputNotes : List Note) (zkAsset : Address) (ace : Address)
    (publicOwner : Address) (sender : Address) (g : Nat)
    (approveFails : Bool) (submitFails : Bool) : ShieldResult :=
  let r1 := jsFor outputNotes (fun acc x => acc - (x.k : Int)) 0 g
  let r2 := jsFor inputNotes (fun acc x => acc + (x.k : Int)) r1.1 r1.2
  let proof : JoinSplitProof := ⟨inputNotes, outputNotes, sender, r2.1, publicOwner⟩
  if approveFails then
    ⟨proof, [ShieldStep.publicApprove ace zkAsset (hash proof) (-r2.1)],
      Outcome.exn, r2.2⟩
  else
    ⟨proof,
      [ShieldStep.publicApprove ace zkAsset (hash proof) (-r2.1),
       ShieldStep.confidentialTransferSubmit zkAsset],
      if submitFails then Outcome.exit (-1) else Outcome.ok, r2.2⟩

/-- One receipt log entry as inspected by `logNoteEvents`: the event name and
the `owner` / `noteHash` fields of its `args`. -/
structure LogEntry where
  event : String
  owner : Nat
  noteHash : Nat
deriving Repr, DecidableEq

/-- The normalized record `logNoteEvents` prints for a matching entry. -/
structure PrintedRecord where
  event : String
  owner : Nat
  hash : Nat
deriving Repr, DecidableEq

/-- Model of `logNoteEvents(logs)`: the loop walks the log list (with the
module-global counter `i`) and prints one normalized record for each entry
whose event is `"CreateNote"` or `"DestroyNote"`.  Returns the printed
records in order and the final value of the global counter. -/
def logNoteEvents (logs : List LogEntry) (g : Nat) :
    List PrintedRecord × Nat :=
  jsFor logs
    (fun acc e =>
      if e.event = "CreateNote" ∨ e.event = "DestroyNote" then
        acc ++ [⟨e.event, e.owner, e.noteHash⟩]
      else acc)
    [] g

/-- A constructor argument passed to a contract deployment (`txOptions` is
omitted, since it is passed to every call alike). -/
inductive CtorArg
  | addr (a : Address)
  | num (n : Nat)
  | numList (ns : List Nat)
deriving Repr, DecidableEq

/-- One external call made by `instantiate`, in the order the source awaits
them on the success path. -/
inductive ChainCall
  | readContract (artifactName : String)
  | deploy (artifact : String) (args : List CtorArg)
  | setFactory (factoryId : Nat) (factory : Address)
  | setCommonReferenceString
  | setProof (proofId : Nat) (verifier : Address)
deriving Repr, DecidableEq

/-- Model of the success path of `instantiate(besu, txOptions)`.

`alloc n` is the address the execution client assigns to the `n`-th `new(...)`
deployment (deployments happen in source order: ace 0, joinSplit 1,
joinSplitFluid 2, erc20 3, baseFactory 4, adjustableFactory 5,
zkAssetMintable 6, zkAsset 7).  `scalingFactor`, `joinSplitProofId` and
`mintProofId` stand for the external library constants
`ERC20_SCALING_FACTOR`, `proofs.JOIN_SPLIT_PROOF` and `proofs.MINT_PROOF`.

Returns the ordered trace of external calls and the `instances` registry in
property-insertion order. -/
def instantiate (alloc : Nat → Address) (scalingFactor : Nat)
    (joinSplitProofId : Nat) (mintProofId : Nat) :
    List ChainCall × List (String × Address) :=
  let ace := alloc 0
  let joinSplit := alloc 1
  let joinSplitFluid := alloc 2
  let erc20 := alloc 3
  let baseFactory := alloc 4
  let adjustableFactory := alloc 5
  let zkAssetMintable := alloc 6
  let zkAsset := alloc 7
  ([ChainCall.readContract "ACE.json",
    ChainCall.readContract "JoinSplit.json",
    ChainCall.readContract "JoinSplitFluid.json",
    ChainCall.readContract "ERC20Mintable.json",
    ChainCall.readContract "FactoryBase201907.json",
    ChainCall.readContract "FactoryAdjustable201907.json",
    ChainCall.readContract "ZkAssetMintable.json",
    ChainCall.readContract "ZkAsset.json",
    ChainCall.deploy "ACE" [],
    ChainCall.deploy "JoinSplit" [],
    ChainCall.deploy "JoinSplitFluid" [],
    ChainCall.deploy "ERC20Mintable" [],
    ChainCall.deploy "FactoryBase201907" [CtorArg.addr ace],
    ChainCall.deploy "FactoryAdjustable201907" [CtorArg.addr ace],
    ChainCall.setFactory (1 * 256 ^ 2 + 1 * 256 ^ 1 + 1 * 256 ^ 0) baseFactory,
    ChainCall.setFactory (1 * 256 ^ 2 + 1 * 256 ^ 1 + 2 * 256 ^ 0) adjustableFactory,
    ChainCall.setFactory (1 * 256 ^ 2 + 1 * 256 ^ 1 + 3 * 256 ^ 0) adjustableFactory,
    ChainCall.deploy "ZkAssetMintable"
      [CtorArg.addr ace, CtorArg.addr erc20, CtorArg.num scalingFactor,
       CtorArg.num 0, CtorArg.numList []],
    ChainCall.deploy "ZkAsset"
      [CtorArg.addr ace, CtorArg.addr erc20, CtorArg.num 1],
    ChainCall.setCommonReferenceString,
    ChainCall.setProof joinSplitProofId joinSplit,
    ChainCall.setProof mintProofId joinSplitFluid],
   [("ace", ace), ("joinSplit", joinSplit), ("joinSplitFluid", joinSplitFluid),
    ("erc20", erc20), ("baseFactory", baseFactory),
    ("adjustableFactory", adjustableFactory),
    ("zkAssetMintable", zkAssetMintable), ("zkAsset", zkAsset)])

/-- `true` on the deployments of the two asset-wrapper contracts. -/
def isAssetWrapperDeploy : ChainCall → Bool
  | .deploy a _ => a == "ZkAssetMintable" || a == "ZkAsset"
  | _ => false

/-- `true` on a deployment of the named artifact. -/
def isDeployOf (artifact : String) : ChainCall → Bool
  | .deploy a _ => a == artifact
  | _ => false

/-- Index of the first deployment of the named artifact in a call trace. -/
def firstDeployIdx (trace : List ChainCall) (artifact : String) : Option Nat :=
  trace.findIdx? (isDeployOf artifact)

/-- The `setFactory` calls of a trace, in order, as (factoryId, address). -/
def setFactoryCalls (trace : List ChainCall) : List (Nat × Address) :=
  trace.filterMap (fun c =>
    match c with
    | .setFactory k a => some (k, a)
    | _ => none)

/-- Address registered under a role name in the instances registry. -/
def roleAddr (registry : List (String × Address)) (role : String) :
    Option Address :=
  (registry.find? (fun p => p.1 == role)).map (fun p => p.2)

/-- Error-propagation model.  `instantiate` awaits 22 external calls; they
are numbered in source order:
0–7 the artifact reads (first `try` block), 8–13 the engine / verifier /
token / factory deployments (second `try` block), 14–16 the `setFactory`
registrations (third `try` block), 17–18 the asset-wrapper deployments
(fourth `try` block), 19 `setCommonReferenceString`, 20 `setProof` for the
join-split verifier, 21 `setProof` for the mint verifier (all three
unguarded).

`execBlock fails ids` runs one `try` block: calls execute in order until the
first one that throws; the thrown exception is caught and logged by the
block's `catch`.  Returns (calls executed, calls whose exception was caught
and logged). -/
def execBlock (fails : Nat → Bool) : List Nat → List Nat × List Nat
  | [] => ([], [])
  | i :: rest =>
    if fails i then ([i], [i])
    else
      let r := execBlock fails rest
      (i :: r.1, r.2)

/-- Whole-function error model of `instantiate`: the four `try` blocks run
one after the other (a caught failure never stops the next block), then the
three unguarded configuration calls run; the first of those that throws makes
the whole function reject (`Outcome.exn`).  Returns (calls executed, calls
whose failure was caught and logged, outcome). -/
def instantiateExec (fails : Nat → Bool) :
    List Nat × List Nat × Outcome :=
  let b1 := execBlock fails [0, 1, 2, 3, 4, 5, 6, 7]
  let b2 := execBlock fails [8, 9, 10, 11, 12, 13]
  let b3 := execBlock fails [14, 15, 16]
  let b4 := execBlock fails [17, 18]
  let executed := b1.1 ++ b2.1 ++ b3.1 ++ b4.1
  let caught := b1.2 ++ b2.2 ++ b3.2 ++ b4.2
  if fails 19 then (executed ++ [19], caught, Outcome.exn)
  else if fails 20 then (executed ++ [19, 20], caught, Outcome.exn)
  else if fails 21 then (executed ++ [19, 20, 21], caught, Outcome.exn)
  else (executed ++ [19, 20, 21], caught, Outcome.ok)

/-! ### Loop lemmas -/

theorem jsForAux_spec {α β : Type} (xs : List β) (step : α → β → α) :
    ∀ (n i : Nat) (acc : α), xs.length - i = n → i ≤ xs.length →
      jsForAux xs step i acc = ((xs.drop i).foldl step acc, xs.length) := by
  intro n
  induction n with
  | zero =>
    intro i acc hn hle
    have hi : i = xs.length := by omega
    rw [jsForAux]
    simp [hi]
  | succ m ih =>
    intro i acc hn _
    have hlt : i < xs.length := by omega
    rw [jsForAux, dif_pos hlt]
    rw [ih (i + 1) (step acc (xs.get ⟨i, hlt⟩)) (by omega) (by omega)]
    rw [List.drop_eq_getElem_cons hlt]
    rfl

theorem jsFor_spec {α β : Type} (xs : List β) (step : α → β → α) (acc : α)
    (g : Nat) : jsFor xs step acc g = (xs.foldl step acc, xs.length) := by
  unfold jsFor
  simpa using jsForAux_spec xs step xs.length 0 acc (by omega) (by omega)

theorem foldl_add_int (xs : List Note) :
    ∀ c : Int, xs.foldl (fun acc x => acc + (x.k : Int)) c = c + sumK xs := by
  induction xs with
  | nil => intro c; simp [sumK]
  | cons y ys ih => intro c; simp only [List.foldl_cons, ih, sumK, List.map_cons, List.sum_cons]; ring

theorem foldl_sub_int (xs : List Note) :
    ∀ c : Int, xs.foldl (fun acc x => acc - (x.k : Int)) c = c - sumK xs := by
  induction xs with
  | nil => intro c; simp [sumK]
  | cons y ys ih => intro c; simp only [List.foldl_cons, ih, sumK, List.map_cons, List.sum_cons]; ring

theorem foldl_add_nat (xs : List Note) :
    ∀ c : Nat, xs.foldl (fun acc x => acc + x.k) c = c + sumKNat xs := by
  induction xs with
  | nil => intro c; simp [sumKNat]
  | cons y ys ih => intro c; simp only [List.foldl_cons, ih, sumKNat, List.map_cons, List.sum_cons]; omega

theorem logNoteEvents_foldl (logs : List LogEntry) :
    ∀ acc : List PrintedRecord,
      logs.foldl
          (fun acc e =>
            if e.event = "CreateNote" ∨ e.event = "DestroyNote" then
              acc ++ [⟨e.event, e.owner, e.noteHash⟩]
            else acc) acc
        = acc ++
          (logs.filter
              (fun e => decide (e.event = "CreateNote" ∨ e.event = "DestroyNote"))).map
            (fun e => ⟨e.event, e.owner, e.noteHash⟩) := by
  induction logs with
  | nil => intro acc; simp
  | cons e rest ih =>
    intro acc
    by_cases h : e.event = "CreateNote" ∨ e.event = "DestroyNote"
    · simp [h, ih]
    · simp [h, ih]

/-! ### Claim theorems -/

/-- Claim C1: for every list of input notes and every list of output notes
(empty lists included), the public delta `kPublic` computed by
`confidentialTransfer`, and identically by `shieldsERC20toZkAsset`, equals
the sum of the input notes' values minus the sum of the output notes' values,
and this `kPublic` is exactly the public-delta argument of the
`JoinSplitProof` bundle both helpers construct (together with the input
notes, output notes, sender and public owner). -/
theorem confidentialTransfer_shield_kPublic
    (inputNotes outputNotes : List Note) (inputNoteOwners : List Nat)
    (hash : JoinSplitProof → Nat) (zkA zkS aceA pub sender : Address)
    (g gs : Nat) (sf af ss disp : Bool) :
    (confidentialTransfer inputNotes inputNoteOwners outputNotes zkA pub
          sender g sf disp).1
        = ⟨inputNotes, outputNotes, sender,
            sumK inputNotes - sumK outputNotes, pub⟩
      ∧ (shieldsERC20toZkAsset hash inputNotes inputNoteOwners outputNotes
            zkS aceA pub sender gs af ss).proof
          = ⟨inputNotes, outputNotes, sender,
              sumK inputNotes - sumK outputNotes, pub⟩ := by
  constructor
  · simp only [confidentialTransfer, jsFor_spec, foldl_sub_int, foldl_add_int]
    simp only [JoinSplitProof.mk.injEq, true_and, and_true]
    omega
  · cases af <;>
      simp only [shieldsERC20toZkAsset, jsFor_spec, foldl_sub_int,
        foldl_add_int, Bool.false_eq_true, if_true, if_false] <;>
      · simp only [JoinSplitProof.mk.injEq, true_and, and_true]
        omega

/-- Claim C2: for every list of notes passed to `mintConfidentialAsset`, the
new counter note is created with value equal to the sum of the minted notes'
values plus the previous total-minted counter (the zero-value placeholder
note, of value 0), and the old-counter argument of the `MintProof` is that
zero-value placeholder note. -/
theorem mintConfidentialAsset_counterNote (notes : List Note)
    (publicKey sender g : Nat) (sf : Bool) :
    ((mintConfidentialAsset notes publicKey sender g sf).1.newTotalValueNote.k
        = sumKNat notes
          + (mintConfidentialAsset notes publicKey sender g
              sf).1.currentTotalValueNote.k)
      ∧ (mintConfidentialAsset notes publicKey sender g
            sf).1.currentTotalValueNote = createZeroValueNote
      ∧ createZeroValueNote.k = 0
      ∧ (mintConfidentialAsset notes publicKey sender g sf).1.mintedNotes
          = notes := by
  refine ⟨?_, rfl, rfl, by simp [mintConfidentialAsset]⟩
  simp [mintConfidentialAsset, jsFor_spec, foldl_add_nat, createNote,
    createZeroValueNote]

/-- Claim C6: `logNoteEvents` emits exactly one normalized record (event
name, owner, note hash) per log entry whose event is `"CreateNote"` or
`"DestroyNote"`, zero records for every other event kind, and the emitted
records appear in input order — i.e. the printed list is the filter of the
log list to the two recognized kinds, mapped to its normalized
projection. -/
theorem logNoteEvents_spec (logs : List LogEntry) (g : Nat) :
    (logNoteEvents logs g).1
      = (logs.filter
            (fun e => decide (e.event = "CreateNote" ∨ e.event = "DestroyNote"))).map
          (fun e => ⟨e.event, e.owner, e.noteHash⟩) := by
  simp [logNoteEvents, jsFor_spec, logNoteEvents_foldl]

/-- Claim C10: although the loop counter `i` is an undeclared module-shared
global, each loop header reassigns `i = 0`, so the values the helpers compute
— `totalMintedValue` in `mintConfidentialAsset` (carried by the new counter
note of the `MintProof`) and `kPublic` in `confidentialTransfer` and
`shieldsERC20toZkAsset` (carried by the `JoinSplitProof`) — depend only on
the note lists: two runs with the same note arguments but different initial
values of the global `i` construct identical proof bundles. -/
theorem helpers_independent_of_globalCounter (notes inputNotes outputNotes : List Note)
    (inputNoteOwners : List Nat) (hash : JoinSplitProof → Nat)
    (publicKey zkA zkS aceA pub sender : Nat) (g1 g2 : Nat)
    (sf af ss disp : Bool) :
    ((mintConfidentialAsset notes publicKey sender g1 sf).1
        = (mintConfidentialAsset notes publicKey sender g2 sf).1)
      ∧ ((confidentialTransfer inputNotes inputNoteOwners outputNotes zkA pub
            sender g1 sf disp).1
          = (confidentialTransfer inputNotes inputNoteOwners outputNotes zkA
              pub sender g2 sf disp).1)
      ∧ ((shieldsERC20toZkAsset hash inputNotes inputNoteOwners outputNotes
            zkS aceA pub sender g1 af ss).proof
          = (shieldsERC20toZkAsset hash inputNotes inputNoteOwners outputNotes
              zkS aceA pub sender g2 af ss).proof) := by
  refine ⟨rfl, rfl, ?_⟩
  cases af <;> rfl

/-- Claim C3: the deployment step deploys exactly two asset-wrapper
contracts, each constructed with the engine address (`alloc 0`, registered as
"ace") and the fungible token address (`alloc 3`, registered as "erc20"); the
first is the mint-permitting wrapper `ZkAssetMintable`, constructed with the
ERC20 scaling-factor constant, the (zero) mint flag and the empty initial
convertible-note list, and the second is `ZkAsset`, constructed with scaling
factor 1 and no minting flag among its arguments. -/
theorem instantiate_assetWrappers (alloc : Nat → Address)
    (scalingFactor jsp mp : Nat) :
    ((instantiate alloc scalingFactor jsp mp).1.filter isAssetWrapperDeploy
        = [ChainCall.deploy "ZkAssetMintable"
            [CtorArg.addr (alloc 0), CtorArg.addr (alloc 3),
             CtorArg.num scalingFactor, CtorArg.num 0, CtorArg.numList []],
           ChainCall.deploy "ZkAsset"
            [CtorArg.addr (alloc 0), CtorArg.addr (alloc 3), CtorArg.num 1]])
      ∧ roleAddr (instantiate alloc scalingFactor jsp mp).2 "ace"
          = some (alloc 0)
      ∧ roleAddr (instantiate alloc scalingFactor jsp mp).2 "erc20"
          = some (alloc 3) := by
  exact ⟨rfl, rfl, rfl⟩

/-- Claim C4: during deployment exactly three `setFactory` registrations are
made on the engine, with keys `1*256^2 + 1*256^1 + N*256^0 = 65536 + 256 + N`
for N = 1, 2, 3; key N = 1 is bound to the base factory's address (`alloc 4`,
registered as "baseFactory") and keys N = 2 and N = 3 are both bound to the
same adjustable factory address (`alloc 5`, registered as
"adjustableFactory"). -/
theorem instantiate_setFactoryKeys (alloc : Nat → Address)
    (scalingFactor jsp mp : Nat) :
    (setFactoryCalls (instantiate alloc scalingFactor jsp mp).1
        = [(1 * 256 ^ 2 + 1 * 256 ^ 1 + 1 * 256 ^ 0, alloc 4),
           (1 * 256 ^ 2 + 1 * 256 ^ 1 + 2 * 256 ^ 0, alloc 5),
           (1 * 256 ^ 2 + 1 * 256 ^ 1 + 3 * 256 ^ 0, alloc 5)])
      ∧ 1 * 256 ^ 2 + 1 * 256 ^ 1 + 1 * 256 ^ 0 = 65536 + 256 + 1
      ∧ 1 * 256 ^ 2 + 1 * 256 ^ 1 + 2 * 256 ^ 0 = 65536 + 256 + 2
      ∧ 1 * 256 ^ 2 + 1 * 256 ^ 1 + 3 * 256 ^ 0 = 65536 + 256 + 3
      ∧ roleAddr (instantiate alloc scalingFactor jsp mp).2 "baseFactory"
          = some (alloc 4)
      ∧ roleAddr (instantiate alloc scalingFactor jsp mp).2 "adjustableFactory"
          = some (alloc 5) := by
  exact ⟨rfl, rfl, rfl, rfl, rfl, rfl⟩

/-- Claim C9: on the success path `instantiate` returns a registry of exactly
8 named contract instances, in order ace, joinSplit, joinSplitFluid, erc20,
baseFactory, adjustableFactory, zkAssetMintable, zkAsset; the engine (ACE) is
deployed at trace position 8, strictly before the two factory deployments at
positions 12 and 13, and both factory contracts are constructed with the
engine's address. -/
theorem instantiate_registry (alloc : Nat → Address)
    (scalingFactor jsp mp : Nat) :
    ((instantiate alloc scalingFactor jsp mp).2.map Prod.fst
        = ["ace", "joinSplit", "joinSplitFluid", "erc20", "baseFactory",
           "adjustableFactory", "zkAssetMintable", "zkAsset"])
      ∧ (instantiate alloc scalingFactor jsp mp).2.length = 8
      ∧ firstDeployIdx (instantiate alloc scalingFactor jsp mp).1 "ACE"
          = some 8
      ∧ firstDeployIdx (instantiate alloc scalingFactor jsp mp).1
            "FactoryBase201907" = some 12
      ∧ firstDeployIdx (instantiate alloc scalingFactor jsp mp).1
            "FactoryAdjustable201907" = some 13
      ∧ (8 : Nat) < 12 ∧ (8 : Nat) < 13
      ∧ (instantiate alloc scalingFactor jsp mp).1[12]?
          = some (ChainCall.deploy "FactoryBase201907" [CtorArg.addr (alloc 0)])
      ∧ (instantiate alloc scalingFactor jsp mp).1[13]?
          = some (ChainCall.deploy "FactoryAdjustable201907"
              [CtorArg.addr (alloc 0)])
      ∧ roleAddr (instantiate alloc scalingFactor jsp mp).2 "ace"
          = some (alloc 0) := by
  exact ⟨rfl, rfl, rfl, rfl, rfl, by omega, by omega, rfl, rfl, rfl⟩

/-- Claim C5: every `shieldsERC20toZkAsset` call invokes the engine's
`publicApprove` with the asset contract's address, the constructed proof's
hash and the negated public delta `-kPublic` as its very first on-chain call;
when the approval completes, the `confidentialTransfer` submission is the
next and only following call, so the awaited approval strictly precedes the
transfer.  In particular, shielding 20 public tokens into one confidential
note of value 20 (no input notes) requests approval for exactly 20 units. -/
theorem shieldsERC20toZkAsset_approvalBeforeTransfer
    (hash : JoinSplitProof → Nat) (inputNotes outputNotes : List Note)
    (inputNoteOwners : List Nat) (zkA aceA pub sender : Address) (g : Nat)
    (af ss : Bool) (npk : Nat) :
    ((shieldsERC20toZkAsset hash inputNotes inputNoteOwners outputNotes zkA
          aceA pub sender g af ss).steps.head?
        = some (ShieldStep.publicApprove aceA zkA
            (hash (shieldsERC20toZkAsset hash inputNotes inputNoteOwners
                outputNotes zkA aceA pub sender g af ss).proof)
            (-(sumK inputNotes - sumK outputNotes))))
      ∧ ((shieldsERC20toZkAsset hash inputNotes inputNoteOwners outputNotes
            zkA aceA pub sender g false ss).steps
          = [ShieldStep.publicApprove aceA zkA
              (hash (shieldsERC20toZkAsset hash inputNotes inputNoteOwners
                  outputNotes zkA aceA pub sender g false ss).proof)
              (-(sumK inputNotes - sumK outputNotes)),
             ShieldStep.confidentialTransferSubmit zkA])
      ∧ ((shieldsERC20toZkAsset hash [] inputNoteOwners [⟨npk, 20⟩] zkA aceA
            pub sender g false ss).steps
          = [ShieldStep.publicApprove aceA zkA
              (hash ⟨[], [⟨npk, 20⟩], sender, -20, pub⟩) 20,
             ShieldStep.confidentialTransferSubmit zkA]) := by
  refine ⟨?_, ?_, ?_⟩
  · cases af <;>
      · simp only [shieldsERC20toZkAsset, jsFor_spec, foldl_sub_int,
          foldl_add_int, Bool.false_eq_true, if_true, if_false,
          List.head?_cons, Option.some.injEq, ShieldStep.publicApprove.injEq,
          true_and]
        omega
  · simp only [shieldsERC20toZkAsset, jsFor_spec, foldl_sub_int,
      foldl_add_int, Bool.false_eq_true, if_false, List.cons.injEq,
      ShieldStep.publicApprove.injEq, true_and, and_true]
    omega
  · simp only [shieldsERC20toZkAsset, jsFor_spec, foldl_sub_int,
      foldl_add_int, Bool.false_eq_true, if_false]
    norm_num [sumK]

/-! ### Error-model lemmas -/

theorem execBlock_head (fails : Nat → Bool) (j : Nat) (rest : List Nat) :
    j ∈ (execBlock fails (j :: rest)).1 := by
  by_cases hf : fails j <;> simp [execBlock, hf]

theorem execBlock_caught_filter (fails : Nat → Bool) :
    ∀ ids : List Nat, (∀ i ∈ ids, i ≤ 18) →
      (execBlock fails ids).1.filter (fun i => fails i && decide (i ≤ 18))
        = (execBlock fails ids).2 := by
  intro ids
  induction ids with
  | nil => intro _; simp [execBlock]
  | cons j rest ih =>
    intro hb
    have hj : j ≤ 18 := hb j (by simp)
    by_cases hf : fails j
    · simp [execBlock, hf, hj]
    · simp [execBlock, hf, ih (fun i hi => hb i (by simp [hi]))]

theorem execBlock_caught_mem (fails : Nat → Bool) :
    ∀ (ids : List Nat) (i : Nat), i ∈ (execBlock fails ids).2 → i ∈ ids := by
  intro ids
  induction ids with
  | nil => intro i hi; simp [execBlock] at hi
  | cons j rest ih =>
    intro i hi
    by_cases hf : fails j
    · simp [execBlock, hf] at hi
      simp [hi]
    · simp only [execBlock, hf, Bool.false_eq_true, if_false] at hi
      exact List.mem_cons_of_mem j (ih i hi)

/-- Claim C7: error handling is two-tier.  First tier: within `instantiate`,
the failures caught and logged are exactly the failing calls among the
executed ones in the four guarded blocks (call ids 0–18: artifact reads,
deployments, factory registrations, asset deployments), and subsequent steps
still execute — each block's first call (0, 8, 14, 17) and the first
unguarded configuration call (19) execute no matter which guarded calls fail.
Second tier: a failing transaction submission inside `mintConfidentialAsset`,
`confidentialTransfer` or `shieldsERC20toZkAsset` makes the helper call
`process.exit(-1)`, a non-zero exit status. -/
theorem errorHandling_twoTier (fails : Nat → Bool)
    (notes inputNotes outputNotes : List Note) (inputNoteOwners : List Nat)
    (hash : JoinSplitProof → Nat)
    (publicKey zkA zkS aceA pub sender g : Nat) (disp : Bool) :
    ((instantiateExec fails).2.1
        = (instantiateExec fails).1.filter
            (fun i => fails i && decide (i ≤ 18)))
      ∧ 0 ∈ (instantiateExec fails).1
      ∧ 8 ∈ (instantiateExec fails).1
      ∧ 14 ∈ (instantiateExec fails).1
      ∧ 17 ∈ (instantiateExec fails).1
      ∧ 19 ∈ (instantiateExec fails).1
      ∧ (mintConfidentialAsset notes publicKey sender g true).2.1
          = Outcome.exit (-1)
      ∧ (confidentialTransfer inputNotes inputNoteOwners outputNotes zkA pub
            sender g true disp).2.1 = Outcome.exit (-1)
      ∧ (shieldsERC20toZkAsset hash inputNotes inputNoteOwners outputNotes
            zkS aceA pub sender g false true).outcome = Outcome.exit (-1)
      ∧ Outcome.isNonzeroExit (Outcome.exit (-1)) = true := by
  have h1 := execBlock_caught_filter fails [0, 1, 2, 3, 4, 5, 6, 7] (by decide)
  have h2 := execBlock_caught_filter fails [8, 9, 10, 11, 12, 13] (by decide)
  have h3 := execBlock_caught_filter fails [14, 15, 16] (by decide)
  have h4 := execBlock_caught_filter fails [17, 18] (by decide)
  have m0 := execBlock_head fails 0 [1, 2, 3, 4, 5, 6, 7]
  have m8 := execBlock_head fails 8 [9, 10, 11, 12, 13]
  have m14 := execBlock_head fails 14 [15, 16]
  have m17 := execBlock_head fails 17 [18]
  refine ⟨?_, ?_, ?_, ?_, ?_, ?_, rfl, rfl, rfl, rfl⟩ <;>
    · simp only [instantiateExec]
      split_ifs <;>
        simp [List.filter_append, h1, h2, h3, h4, m0, m8, m14, m17]

/-- Claim C8: the final engine-configuration calls of `instantiate` —
`setCommonReferenceString` (call 19) and the two `setProof` calls binding the
join-split verifier (20) and the mint verifier (21) — are not wrapped in any
error handler: the run's outcome is a propagated exception exactly when the
first of these calls reached fails, and otherwise `instantiate` completes;
no call with id above 18 ever appears among the caught-and-logged
failures. -/
theorem instantiate_finalConfig_unguarded (fails : Nat → Bool) :
    ((instantiateExec fails).2.2
        = (if fails 19 then Outcome.exn
           else if fails 20 then Outcome.exn
           else if fails 21 then Outcome.exn
           else Outcome.ok))
      ∧ ((instantiateExec fails).2.1.all (fun i => decide (i ≤ 18)) = true) := by
  constructor
  · simp only [instantiateExec]
    split_ifs <;> rfl
  · rw [List.all_eq_true]
    intro i hi
    have hmem : i ∈ (execBlock fails [0, 1, 2, 3, 4, 5, 6, 7]).2
        ++ (execBlock fails [8, 9, 10, 11, 12, 13]).2
        ++ (execBlock fails [14, 15, 16]).2
        ++ (execBlock fails [17, 18]).2 := by
      simp only [instantiateExec] at hi
      split_ifs at hi <;> exact hi
    have hle : i ≤ 18 := by
      simp only [List.mem_append] at hmem
      rcases hmem with ((h | h) | h) | h <;>
        · have := execBlock_caught_mem fails _ i h
          simp at this
          omega
    simpa using hle

end AztecDemo
